import Mathlib

/-!
Verification of the e-paper calendar rendering core against its
natural-language specification.

The definitions below are a shallow embedding of the Python sources:
`image_renderer.py` (font cache, text truncation, month grid, dynamic
render and its pagination / agenda loop), `display_controller.py`
(display state machine) and `google_service.py` (item sort).  Machine
text is modelled as `List Char` / `String`, pixel widths as an abstract
measure `w : List Char → Nat`, Python ints as `Int` (or `Nat` where the
source value is always a non-negative count), and Python exceptions as
`Except` values.
-/

set_option maxRecDepth 4000

/-- A schedule item, embedding the 4-tuples
`(time_str, title, source, location)` produced by
`google_service.get_events_and_tasks` and consumed by
`ImageRenderer._draw_events`. -/
structure SItem where
  time_label : String
  title : String
  source : String
  location : String
deriving DecidableEq

/-- The configuration fields of `config.Config` used by the renderer.
All geometry fields are `Int` (they come from `_get_int`, which parses an
arbitrary integer); `EVENTS_PER_PAGE` is kept as `Nat` because it is used
as a page size. -/
structure Config where
  MARGIN : Int
  LEFT_PANEL_W : Int
  RIGHT_PANEL_W : Int
  EPD_WIDTH : Int
  EPD_HEIGHT : Int
  TIME_BLOCK_H : Int
  LINE_SPACING : Int
  EVENTS_PER_PAGE : Nat
  FONT_SIZE_SUBTITLE : Int
  FONT_SIZE_REGULAR : Int
  FONT_SIZE_SMALL : Int
  FONT_SIZE_TIME : Int
  FONT_SIZE_NO_EVENTS : Int
  FONT_SIZE_EMOJI : Int
  MSG_NO_EVENTS : String
  MSG_FREE_DAY : String
  MSG_EMOJI_HAPPY : String
deriving DecidableEq

/-- Python slice `l[a:b]` for `0 ≤ a ≤ b` (the only shape used by the
renderer). -/
def pySlice {α : Type} (l : List α) (a b : Nat) : List α :=
  (l.drop a).take (b - a)

/-- The pagination block of `ImageRenderer.render_dynamic`
(image_renderer.py lines 266-274):

    if items:
        total_pages = (len(items) + EVENTS_PER_PAGE - 1) // EVENTS_PER_PAGE
        page_index = page_index % total_pages
        start_idx = page_index * EVENTS_PER_PAGE
        end_idx = start_idx + EVENTS_PER_PAGE
        show_items = items[start_idx:end_idx]
    else:
        show_items, total_pages = [], 1

Returns `(show_items, page_index, total_pages)`; note that in the empty
branch the source leaves `page_index` untouched. -/
def paginate (items : List SItem) (pageSize : Nat) (pageIndex : Nat) :
    List SItem × Nat × Nat :=
  if items ≠ [] then
    let totalPages := (items.length + pageSize - 1) / pageSize
    let idx := pageIndex % totalPages
    let startIdx := idx * pageSize
    let endIdx := startIdx + pageSize
    (pySlice items startIdx endIdx, idx, totalPages)
  else
    ([], pageIndex, 1)

/-- `total_pages` as computed by `render_dynamic` (1 when the list is
empty). -/
def totalPagesOf (items : List SItem) (pageSize : Nat) : Nat :=
  if items ≠ [] then (items.length + pageSize - 1) / pageSize else 1

/-- The page slice `items[i*p : i*p + p]` used by `render_dynamic`. -/
def pageAt (items : List SItem) (pageSize : Nat) (i : Nat) : List SItem :=
  pySlice items (i * pageSize) (i * pageSize + pageSize)

/-- The literal `"..."` appended by `ImageRenderer._truncate_text`. -/
def ellipsis : List Char := ['.', '.', '.']

/-- The binary-search loop of `ImageRenderer._truncate_text`
(image_renderer.py lines 81-88):

    low, high = 0, len(text)
    while low < high:
        mid = (low + high) // 2
        candidate = text[:mid] + "..."
        if self._text_size(draw, candidate, font)[0] <= max_width:
            low = mid + 1
        else:
            high = mid

`w` is the abstract glyph-width measure (`_text_size`'s width
component).  The loop is written with a structural iteration budget
`fuel`; every pass shrinks `high - low` by at least one, so running it
with `fuel = high - low` (as `truncSearch` does) is exactly the `while`
loop: the budget can only run out once `low < high` has become false. -/
def truncSearchGo (w : List Char → Nat) (text : List Char) (maxW : Int) :
    Nat → Nat → Nat → Nat
  | 0, low, _high => low
  | fuel + 1, low, high =>
    if low < high then
      let mid := (low + high) / 2
      if (w (text.take mid ++ ellipsis) : Int) ≤ maxW then
        truncSearchGo w text maxW fuel (mid + 1) high
      else
        truncSearchGo w text maxW fuel low mid
    else
      low

/-- The binary-search loop run to completion: `fuel = high - low` bounds
its iteration count. -/
def truncSearch (w : List Char → Nat) (text : List Char) (maxW : Int)
    (low high : Nat) : Nat :=
  truncSearchGo w text maxW (high - low) low high

/-- `ImageRenderer._truncate_text` (image_renderer.py lines 75-91).
After the binary search:

    result = text[:max(low - 1, 0)] + ("..." if len(text) > 1 else "")
    return result or "..."

(`Nat` subtraction realises Python's `max(low - 1, 0)`.) -/
def truncate_text (w : List Char → Nat) (text : List Char) (maxW : Int) :
    List Char :=
  if (w text : Int) ≤ maxW then text
  else
    let low := truncSearch w text maxW 0 text.length
    let result := text.take (low - 1) ++
      (if text.length > 1 then ellipsis else [])
    if result = [] then ellipsis else result

/-- `_truncate_text` lifted to `String` (used by `_draw_events`). -/
def truncateS (w : List Char → Nat) (s : String) (maxW : Int) : String :=
  ⟨truncate_text w s.data maxW⟩

/-! ## Month grid (`ImageRenderer._draw_month_calendar`) -/

/-- Gregorian leap year, as used by Python's `calendar` module. -/
def isLeap (y : Nat) : Bool := y % 4 = 0 && (y % 100 ≠ 0 || y % 400 = 0)

/-- Number of days of month `m` of year `y` (Python
`calendar.monthrange`). -/
def daysInMonth (y m : Nat) : Nat :=
  if m = 2 then (if isLeap y then 29 else 28)
  else if m = 4 ∨ m = 6 ∨ m = 9 ∨ m = 11 then 30
  else 31

/-- Days in the proleptic Gregorian calendar strictly before January 1 of
year `y` (Python `datetime.date.toordinal` minus one). -/
def daysBeforeYear (y : Nat) : Nat :=
  365 * (y - 1) + (y - 1) / 4 - (y - 1) / 100 + (y - 1) / 400

/-- Days of year `y` strictly before the first of month `m`. -/
def daysBeforeMonth (y m : Nat) : Nat :=
  ((List.range' 1 (m - 1)).map (daysInMonth y)).sum

/-- Weekday of `(y, m, d)` with Monday = 0 .. Sunday = 6, matching
Python's `datetime.date.weekday` (January 1 of year 1 is a Monday). -/
def weekday (y m d : Nat) : Nat :=
  (daysBeforeYear y + daysBeforeMonth y m + (d - 1)) % 7

/-- Split a flat cell list into week rows of 7, as
`calendar.Calendar.monthdayscalendar` does.  `fuel` is a structural
iteration budget; each step removes at least one element, so `l.length`
steps (as `weekRows` supplies) always reach the empty list. -/
def weekRowsGo : Nat → List Nat → List (List Nat)
  | 0, _ => []
  | fuel + 1, l => if l = [] then [] else l.take 7 :: weekRowsGo fuel (l.drop 7)

/-- Chunking of the flat cell list into rows of 7. -/
def weekRows (l : List Nat) : List (List Nat) :=
  weekRowsGo l.length l

/-- `calendar.Calendar(firstweekday=SUNDAY).monthdayscalendar(y, m)` as
called by `ImageRenderer._draw_month_calendar` (image_renderer.py lines
107-120): weeks of 7 cells, cell 0 for out-of-month positions, the days
1..N of the month laid out starting in the column of their weekday
counted from Sunday. -/
def monthdayscalendar (y m : Nat) : List (List Nat) :=
  let n := daysInMonth y m
  let gap := (weekday y m 1 + 1) % 7
  let pad := (7 - (gap + n) % 7) % 7
  weekRows (List.replicate gap 0 ++ List.range' 1 n ++ List.replicate pad 0)

/-! ## Item sort (`google_service.get_events_and_tasks`) -/

/-- The sort key of `google_service.get_events_and_tasks`
(google_service.py lines 286-289):

    def sort_key(item):
        time_str = item[0]
        return "00:00" if time_str == "Dia todo" else time_str
-/
def sort_key (it : SItem) : String :=
  if it.time_label = "Dia todo" then "00:00" else it.time_label

/-- Stable insertion of `x` (an earlier element of the original list)
into an already-sorted suffix: `x` passes only elements with strictly
smaller keys, so elements with equal keys keep their original relative
order — the guarantee of Python's stable `list.sort`.  Keys are compared
as Python compares strings: lexicographically on their code-point
sequences (`.data`). -/
def insertByKey (x : SItem) : List SItem → List SItem
  | [] => [x]
  | y :: ys =>
    if (sort_key y).data < (sort_key x).data then y :: insertByKey x ys
    else x :: y :: ys

/-- `all_items.sort(key=sort_key)` (google_service.py line 291): Python's
`list.sort` is a stable sort by the key; modelled as a stable insertion
sort, which computes the same list. -/
def sortItems (l : List SItem) : List SItem :=
  l.foldr insertByKey []

/-! ## Font cache (`FontManager.get_font`) -/

/-- A loaded font resource: either a truetype font from a path and size,
or the built-in fallback (`ImageFont.load_default()`). -/
inductive Font where
  | truetype (path : String) (size : Nat)
  | fallback
deriving DecidableEq

/-- The two font paths of `config.Config` used by `FontManager`. -/
structure FontConfig where
  FONT_BOLD : String
  FONT_REGULAR : String

/-- `FontManager.get_font` (image_renderer.py lines 23-43).  The cache is
an association list keyed by `f"{font_type}_{size}"`; `loadOk` models
whether `ImageFont.truetype(font_path, size)` succeeds at the moment of
the call (the filesystem may change between calls).  Returns the font and
the updated cache. -/
def get_font (cfg : FontConfig) (loadOk : String → Nat → Bool)
    (cache : List (String × Font)) (fontType : String) (size : Nat) :
    Font × List (String × Font) :=
  let cacheKey := fontType ++ "_" ++ toString size
  match cache.lookup cacheKey with
  | some f => (f, cache)
  | none =>
    let fontPath := if fontType = "bold" then cfg.FONT_BOLD else cfg.FONT_REGULAR
    if loadOk fontPath size then
      (Font.truetype fontPath size, (cacheKey, Font.truetype fontPath size) :: cache)
    else
      (Font.fallback, (cacheKey, Font.fallback) :: cache)

/-! ## Display state machine (`display_controller.DisplayController`) -/

/-- The error taxonomy of `DisplayController`: `importError` models the
`ImportError` of `from waveshare_epd import epd2in13_V2`,
`runtimeError` the explicit `RuntimeError("Display não inicializado")`,
and `driverError` any exception raised by a driver call. -/
inductive DErr where
  | importError
  | runtimeError
  | driverError
deriving DecidableEq

/-- The behaviour of the hardware driver during one call: which of its
operations succeed.  Each flag models whether the corresponding driver
call raises. -/
structure Driver where
  importOk : Bool
  ctorOk : Bool
  getbufferOk : Bool
  initOk : Bool
  clearOk : Bool
  displayOk : Bool
  displayPartBaseOk : Bool
  displayPartialOk : Bool
  sleepOk : Bool
  moduleExitOk : Bool
deriving DecidableEq

/-- The mutable state of `DisplayController`: `self._epd` (the hardware
handle, opaque) and `self._initialized`. -/
structure DCState where
  epd : Option Unit
  initialized : Bool
deriving DecidableEq

/-- `DisplayController._initialize_display` (display_controller.py lines
19-38).  On failure the exception propagates (`raise`) with the state as
it was at the raise point, which here is the input state. -/
def init_display (drv : Driver) (st : DCState) : Except (DErr × DCState) DCState :=
  if st.initialized then .ok st
  else if ¬ drv.importOk then .error (.importError, st)
  else if st.epd = none then
    if drv.ctorOk then .ok { epd := some (), initialized := true }
    else .error (.driverError, st)
  else .ok { st with initialized := true }

/-- `DisplayController.show_image` (display_controller.py lines 40-79).
The `try` body runs `_initialize_display`, the `None` check, `getbuffer`,
then either the full-update sequence (`init`, `Clear`, `display`) or the
partial sequence (`displayPartBaseImage`, `init`, `displayPartial`).  The
`except` clause sets `self._initialized = False` and re-raises, so an
error result carries the post-handler state. -/
def show_image (drv : Driver) (st : DCState) (fullUpdate : Bool) :
    Except (DErr × DCState) DCState :=
  let body : Except (DErr × DCState) DCState :=
    match init_display drv st with
    | .error e => .error e
    | .ok st1 =>
      if st1.epd = none then .error (.runtimeError, st1)
      else if ¬ drv.getbufferOk then .error (.driverError, st1)
      else if fullUpdate then
        if ¬ drv.initOk then .error (.driverError, st1)
        else if ¬ drv.clearOk then .error (.driverError, st1)
        else if ¬ drv.displayOk then .error (.driverError, st1)
        else .ok st1
      else
        if ¬ drv.displayPartBaseOk then .error (.driverError, st1)
        else if ¬ drv.initOk then .error (.driverError, st1)
        else if ¬ drv.displayPartialOk then .error (.driverError, st1)
        else .ok st1
  match body with
  | .ok st1 => .ok st1
  | .error (e, stE) => .error (e, { stE with initialized := false })

/-- `DisplayController.cleanup` (display_controller.py lines 106-121).
The body (under `if self._epd and self._initialized`) calls `sleep`,
then `module_exit` inside a bare `try/except: pass`; the outer
`except Exception` only logs; the `finally` block unconditionally sets
`self._epd = None` and `self._initialized = False`.  Since `finally`
always runs and the handler swallows every body exception, the call
returns normally. -/
def cleanup (drv : Driver) (st : DCState) : Except DErr DCState :=
  let body : Except DErr Unit :=
    if st.epd.isSome && st.initialized then
      if ¬ drv.sleepOk then .error .driverError
      else
        match (if drv.moduleExitOk then Except.ok () else Except.error DErr.driverError :
            Except DErr Unit) with
        | .error _ => .ok ()
        | .ok _ => .ok ()
    else .ok ()
  let afterHandler : Except DErr Unit :=
    match body with
    | .error _ => .ok ()
    | .ok u => .ok u
  match afterHandler with
  | .ok _ => .ok { epd := none, initialized := false }
  | .error e => .error e

/-! ## Drawing operations and the dynamic render -/

/-- One primitive `ImageDraw` call issued by the renderer. -/
inductive DrawOp where
  | rect (x0 y0 x1 y1 : Int) (fill : Option Int) (outline : Option Int)
  | text (x y : Int) (s : String) (fontSize : Int) (fill : Int)
  | line (x0 y0 x1 y1 : Int) (fill : Int)
deriving DecidableEq

/-- `ImageRenderer._draw_time_block` (image_renderer.py lines 149-160) as
the list of draw calls it issues; `wm` is the glyph-width measure. -/
def draw_time_block (cfg : Config) (wm : List Char → Nat)
    (x y width : Int) (timeText : String) : List DrawOp :=
  let tw : Int := wm timeText.data
  [ .rect x y (x + width) (y + cfg.TIME_BLOCK_H) (some 0) none,
    .text (x + (width - tw).fdiv 2) (y + 2) timeText cfg.FONT_SIZE_TIME 255 ]

/-- The per-item cursor advance of the `_draw_events` loop
(image_renderer.py lines 206-223): line 1 height, optional location line,
separator. -/
def advanceCursor (cfg : Config) (cy : Int) (it : SItem) : Int :=
  let cy1 := cy + cfg.FONT_SIZE_REGULAR + 1
  let cy2 :=
    if it.location ≠ "" then cy1 + cfg.FONT_SIZE_SMALL + cfg.LINE_SPACING
    else cy1 + cfg.LINE_SPACING
  cy2 + 2

/-- The item loop of `ImageRenderer._draw_events` (image_renderer.py
lines 206-227).  Each iteration draws the truncated `"{time} {title}"`
line, the truncated location line when non-empty, and a separator, then
breaks when `current_y > y + height - item_font.size` (the caller passes
that bound as `yLimit`).  Returns the draw calls and the items actually
iterated (the break happens after the item is drawn). -/
def events_loop (cfg : Config) (wm : List Char → Nat)
    (x width yLimit : Int) (cy : Int) : List SItem → List DrawOp × List SItem
  | [] => ([], [])
  | it :: rest =>
    let line1 := it.time_label ++ " " ++ it.title
    let o1 : List DrawOp :=
      [.text x cy (truncateS wm line1 width) cfg.FONT_SIZE_REGULAR 0]
    let cy1 := cy + cfg.FONT_SIZE_REGULAR + 1
    let o2 : List DrawOp :=
      if it.location ≠ "" then
        [.text (x + 6) cy1 (truncateS wm it.location (width - 6))
          cfg.FONT_SIZE_SMALL 0]
      else []
    let cy2 : Int :=
      if it.location ≠ "" then cy1 + cfg.FONT_SIZE_SMALL + cfg.LINE_SPACING
      else cy1 + cfg.LINE_SPACING
    let o3 : List DrawOp := [.line x cy2 (x + width) cy2 0]
    let cy3 := cy2 + 2
    if cy3 > yLimit then (o1 ++ o2 ++ o3, [it])
    else
      let r := events_loop cfg wm x width yLimit cy3 rest
      (o1 ++ o2 ++ o3 ++ r.1, it :: r.2)

/-- `ImageRenderer._draw_events` (image_renderer.py lines 162-227): title
bar, then either the no-events message block or the item loop. -/
def draw_events (cfg : Config) (wm : List Char → Nat)
    (x y width height : Int) (items : List SItem)
    (pageIndex totalPages : Nat) : List DrawOp :=
  let title :=
    if items = [] then cfg.MSG_NO_EVENTS
    else if totalPages > 1 then
      "Eventos (" ++ toString (pageIndex + 1) ++ "/" ++ toString totalPages ++ ")"
    else "Eventos"
  let tw : Int := wm title.data
  let bar : List DrawOp :=
    [ .rect x y (x + width) (y + cfg.TIME_BLOCK_H) (some 0) none,
      .text (x + (width - tw).fdiv 2) (y + 2) title cfg.FONT_SIZE_SUBTITLE 255 ]
  let cy := y + cfg.FONT_SIZE_SUBTITLE + 8
  if items = [] then
    let mw : Int := wm cfg.MSG_FREE_DAY.data
    let ew : Int := wm cfg.MSG_EMOJI_HAPPY.data
    bar ++
      [ .text (x + (width - mw).fdiv 2 - 18) (cy + 10) cfg.MSG_FREE_DAY
          cfg.FONT_SIZE_NO_EVENTS 0,
        .text (x + (width - ew).fdiv 2 - 10) (cy + 35) cfg.MSG_EMOJI_HAPPY
          cfg.FONT_SIZE_EMOJI 0 ]
  else
    bar ++ (events_loop cfg wm x width (y + height - cfg.FONT_SIZE_REGULAR) cy items).1

/-- The draw calls of `ImageRenderer.render_dynamic` (image_renderer.py
lines 259-302) together with the pagination result: time block, clear of
the agenda panel interior, then `_draw_events` on the current page. -/
def render_dynamic_ops (cfg : Config) (wm : List Char → Nat)
    (items : List SItem) (pageIndex : Nat) (timeText : String) :
    List DrawOp × List SItem × Nat × Nat :=
  let p := paginate items cfg.EVENTS_PER_PAGE pageIndex
  let right_x := cfg.LEFT_PANEL_W + 2
  let right_y := cfg.MARGIN
  let right_w := cfg.RIGHT_PANEL_W - cfg.MARGIN
  let right_h := cfg.EPD_HEIGHT - cfg.MARGIN * 2
  let left_x := cfg.MARGIN
  let left_y := cfg.MARGIN
  let left_w := cfg.LEFT_PANEL_W - cfg.MARGIN * 2
  let left_h := cfg.EPD_HEIGHT - cfg.MARGIN * 2
  let cal_height := right_h - cfg.TIME_BLOCK_H - 8
  let timeOps := draw_time_block cfg wm (right_x + 2) (right_y + cal_height + 6)
    (right_w - 7) timeText
  let clearOp : List DrawOp :=
    [.rect (left_x + 1) (left_y + 1) (left_x + left_w - 1) (left_y + left_h - 1)
      (some 255) none]
  let evOps := draw_events cfg wm (left_x + 2) (left_y + 2) (left_w - 4)
    (left_h - 6) p.1 p.2.1 p.2.2
  (timeOps ++ clearOp ++ evOps, p)

/-- `ImageRenderer.render_dynamic` over an explicit image store.  Images
live in a store (a list of frames of abstract pixel type `F`); a handle
is an index.  `img = base_image.copy()` allocates a fresh handle holding
the same frame value; every subsequent draw call mutates only the frame
at the new handle via the abstract rasteriser `applyOp`.  Returns the
updated store and the handle of the dynamic frame. -/
def render_dynamic_store {F : Type} (applyOp : F → DrawOp → F) (dflt : F)
    (cfg : Config) (wm : List Char → Nat) (items : List SItem)
    (pageIndex : Nat) (timeText : String) (store : List F) (base : Nat) :
    List F × Nat :=
  let ops := (render_dynamic_ops cfg wm items pageIndex timeText).1
  let img := store.length
  let store1 := store ++ [store.getD base dflt]
  (ops.foldl (fun st op => st.set img (applyOp (st.getD img dflt) op)) store1, img)

/-! ## Theorems -/

/-- C2 counterexample: for the empty item list (where the computed total
page count is 1), requesting index 0 and index 0 + 1 does not yield the
same resolved index: the source only reduces `page_index` modulo
`total_pages` in the non-empty branch, so the resolved index is 0 in one
call and 1 in the other (the page items are both empty). -/
theorem paginate_empty_index_not_periodic :
    ((paginate [] 3 (0 + totalPagesOf [] 3)).1,
      (paginate [] 3 (0 + totalPagesOf [] 3)).2.1) ≠
    ((paginate ([] : List SItem) 3 0).1, (paginate ([] : List SItem) 3 0).2.1) := by
  decide

/-- C2 (amended): for every item list, positive page size and requested
index `k`, paginating with `k` and with `k + total_pages` yields the same
page items; and for non-empty item lists the whole result — page items,
resolved index and total pages — coincides. -/
theorem paginate_mod_periodic (items : List SItem) (p k : Nat) (hp : 0 < p) :
    (paginate items p (k + totalPagesOf items p)).1 = (paginate items p k).1 ∧
    (items ≠ [] → paginate items p (k + totalPagesOf items p) = paginate items p k) := by
  rcases eq_or_ne items [] with h | h
  · subst h
    exact ⟨rfl, fun hc => absurd rfl hc⟩
  · simp only [paginate, totalPagesOf, h, if_pos, ne_eq, not_false_eq_true, if_true,
      Nat.add_mod_right]
    exact ⟨trivial, fun _ => trivial⟩

/-- C2 witness: the amended periodicity at a concrete non-empty list. -/
theorem paginate_mod_periodic_witness :
    0 < 1 ∧
    ((paginate [⟨"09:00", "A", "CALENDAR", ""⟩] 1
        (0 + totalPagesOf [⟨"09:00", "A", "CALENDAR", ""⟩] 1)).1 =
      (paginate [⟨"09:00", "A", "CALENDAR", ""⟩] 1 0).1 ∧
    ([(⟨"09:00", "A", "CALENDAR", ""⟩ : SItem)] ≠ [] →
      paginate [⟨"09:00", "A", "CALENDAR", ""⟩] 1
          (0 + totalPagesOf [⟨"09:00", "A", "CALENDAR", ""⟩] 1) =
        paginate [⟨"09:00", "A", "CALENDAR", ""⟩] 1 0)) :=
  ⟨by decide, paginate_mod_periodic [⟨"09:00", "A", "CALENDAR", ""⟩] 1 0 (by decide)⟩

/-- C4 counterexample: from the initialized state with a live handle, a
failing driver `display` call makes `show_image` fail, but the state is
not left as it was before the call: the `except` handler sets
`self._initialized = False` before re-raising. -/
theorem show_image_error_changes_state :
    show_image ⟨true, true, true, true, true, false, true, true, true, true⟩
        ⟨some (), true⟩ true =
      .error (.driverError, ⟨some (), false⟩) ∧
    (⟨some (), false⟩ : DCState) ≠ ⟨some (), true⟩ :=
  ⟨rfl, by decide⟩

/-- C4 (amended): when a display update from an initialized state fails,
the error is surfaced and the state is left with the hardware handle
unchanged but the initialized flag reset to false — the caller's next
call re-initializes; the state is not fully preserved and not fully
reset. -/
theorem show_image_error_resets_initialized (drv : Driver) (st : DCState) (fu : Bool)
    (e : DErr) (st' : DCState) (hinit : st.initialized = true)
    (h : show_image drv st fu = .error (e, st')) :
    st'.epd = st.epd ∧ st'.initialized = false := by
  have hd : init_display drv st = .ok st := by simp [init_display, hinit]
  simp only [show_image, hd] at h
  split at h
  · exact Except.noConfusion h
  · rename_i e' stE heq
    repeat' split at heq
    all_goals
      first
        | exact Except.noConfusion heq
        | (cases heq; cases h; exact ⟨rfl, rfl⟩)

/-- C4 witness: the amended statement at a concrete failing full
update. -/
theorem show_image_error_resets_initialized_witness :
    (⟨some (), true⟩ : DCState).initialized = true ∧
    show_image ⟨true, true, true, true, true, false, true, true, true, true⟩
        ⟨some (), true⟩ true =
      .error (.driverError, ⟨some (), false⟩) ∧
    ((⟨some (), false⟩ : DCState).epd = (⟨some (), true⟩ : DCState).epd ∧
      (⟨some (), false⟩ : DCState).initialized = false) :=
  ⟨rfl, rfl,
    show_image_error_resets_initialized
      ⟨true, true, true, true, true, false, true, true, true, true⟩
      ⟨some (), true⟩ true .driverError ⟨some (), false⟩ rfl rfl⟩

/-- C5: `cleanup` never raises and leaves the controller uninitialized
(`_epd = None`, `_initialized = False`) from any state and under any
driver behaviour (even a failing `sleep` or `module_exit`); calling it
again from the resulting state does the same, so two calls in a row are
safe. -/
theorem cleanup_idempotent (drv drv2 : Driver) (st : DCState) :
    cleanup drv st = .ok { epd := none, initialized := false } ∧
    cleanup drv2 { epd := none, initialized := false } =
      .ok { epd := none, initialized := false } := by
  rcases st with ⟨epd, init⟩
  rcases drv with ⟨a1, a2, a3, a4, a5, a6, a7, a8, s1, m1⟩
  rcases drv2 with ⟨b1, b2, b3, b4, b5, b6, b7, b8, s2, m2⟩
  constructor
  · rcases epd with _ | ⟨⟩ <;> cases init <;> cases s1 <;> cases m1 <;> rfl
  · cases s2 <;> cases m2 <;> rfl

/-- C10: when the first load for a `(font_type, size)` key fails, the
built-in fallback is stored in the cache under that key, and every later
`get_font` call with the same key — under any loader behaviour, even one
where the font file has become loadable — returns the cached fallback
and leaves the cache unchanged: at most one load attempt per key. -/
theorem get_font_fallback_cached (cfg : FontConfig) (loadOk1 loadOk2 : String → Nat → Bool)
    (cache : List (String × Font)) (fontType : String) (size : Nat)
    (hmiss : cache.lookup (fontType ++ "_" ++ toString size) = none)
    (hfail : loadOk1 (if fontType = "bold" then cfg.FONT_BOLD else cfg.FONT_REGULAR)
      size = false) :
    (get_font cfg loadOk1 cache fontType size).1 = Font.fallback ∧
    get_font cfg loadOk2 (get_font cfg loadOk1 cache fontType size).2 fontType size =
      (Font.fallback, (get_font cfg loadOk1 cache fontType size).2) := by
  simp only [get_font, hmiss, hfail, Bool.false_eq_true, if_false, List.lookup_cons]
  simp

/-- C10 witness: a failed bold load at size 12 on an empty cache,
followed by a lookup when the loader would succeed. -/
theorem get_font_fallback_cached_witness :
    ([] : List (String × Font)).lookup ("bold" ++ "_" ++ toString 12) = none ∧
    (fun (_ : String) (_ : Nat) => false)
        (if "bold" = "bold" then "b.ttf" else "r.ttf") 12 = false ∧
    ((get_font ⟨"b.ttf", "r.ttf"⟩ (fun _ _ => false) [] "bold" 12).1 = Font.fallback ∧
      get_font ⟨"b.ttf", "r.ttf"⟩ (fun _ _ => true)
          (get_font ⟨"b.ttf", "r.ttf"⟩ (fun _ _ => false) [] "bold" 12).2 "bold" 12 =
        (Font.fallback, (get_font ⟨"b.ttf", "r.ttf"⟩ (fun _ _ => false) [] "bold" 12).2)) :=
  ⟨rfl, rfl,
    get_font_fallback_cached ⟨"b.ttf", "r.ttf"⟩ (fun _ _ => false) (fun _ _ => true)
      [] "bold" 12 rfl rfl⟩

/-- The page slice is a `take p` of a `drop`. -/
lemma pageAt_eq (l : List SItem) (p i : Nat) : pageAt l p i = (l.drop (i * p)).take p := by
  simp [pageAt, pySlice]

/-- Summing page lengths over `m` pages recovers the list length as soon
as `m` pages of size `p` can hold the whole list. -/
lemma sum_page_lengths (p : Nat) : ∀ (m : Nat) (l : List SItem), l.length ≤ m * p →
    ((List.range m).map (fun i => (pageAt l p i).length)).sum = l.length := by
  intro m
  induction m with
  | zero =>
    intro l hl
    simp only [Nat.zero_mul, Nat.le_zero, List.length_eq_zero] at hl
    simp [hl]
  | succ m ih =>
    intro l hl
    rw [List.range_succ_eq_map, List.map_cons, List.sum_cons, List.map_map]
    have hshift : (List.range m).map ((fun i => (pageAt l p i).length) ∘ Nat.succ)
        = (List.range m).map (fun i => (pageAt (l.drop p) p i).length) := by
      apply List.map_congr_left
      intro i _
      simp only [Function.comp_apply, pageAt_eq, Nat.succ_mul, List.drop_drop]
      rw [Nat.add_comm (i * p) p]
    have hl2 : l.length ≤ m * p + p := by
      rw [← Nat.succ_mul]; exact hl
    rw [hshift, ih (l.drop p) (by simp only [List.length_drop]; omega)]
    have h0 : (pageAt l p 0).length = min p l.length := by
      simp [pageAt_eq]
    rw [h0, List.length_drop]
    omega

/-- C3: for every item list of length `n` and positive page size `p`,
with `total_pages = ceil(n/p)` (1 when `n = 0`) as `render_dynamic`
computes it, the page slices at indices `0 .. total_pages - 1` partition
the list: their lengths sum to `n` and each is at most `p`. -/
theorem pages_partition (items : List SItem) (p : Nat) (hp : 0 < p) :
    ((List.range (totalPagesOf items p)).map (fun i => (pageAt items p i).length)).sum
      = items.length ∧
    ∀ i, i < totalPagesOf items p → (pageAt items p i).length ≤ p := by
  constructor
  · rcases eq_or_ne items [] with h | h
    · subst h
      simp [totalPagesOf, pageAt, pySlice]
    · apply sum_page_lengths
      simp only [totalPagesOf, h, ne_eq, not_false_eq_true, if_true]
      have hd := Nat.div_add_mod (items.length + p - 1) p
      have hm : (items.length + p - 1) % p < p := Nat.mod_lt _ hp
      have hlen : items.length ≠ 0 := fun hz => h (List.length_eq_zero.mp hz)
      generalize hq : (items.length + p - 1) / p = t at *
      have h1 : p * t ≤ t * p := by rw [Nat.mul_comm]
      have h2 : t * p ≤ p * t := by rw [Nat.mul_comm]
      omega
  · intro i _
    simp only [pageAt_eq, List.length_take]
    omega

/-- C3 witness: three items, page size 2 — two pages of lengths 2 and
1. -/
theorem pages_partition_witness :
    0 < 2 ∧
    (((List.range (totalPagesOf
          [⟨"09:00", "A", "CALENDAR", ""⟩, ⟨"10:00", "B", "CALENDAR", ""⟩,
            ⟨"11:00", "C", "TASK", ""⟩] 2)).map
        (fun i => (pageAt
          [⟨"09:00", "A", "CALENDAR", ""⟩, ⟨"10:00", "B", "CALENDAR", ""⟩,
            ⟨"11:00", "C", "TASK", ""⟩] 2 i).length)).sum =
      (([⟨"09:00", "A", "CALENDAR", ""⟩, ⟨"10:00", "B", "CALENDAR", ""⟩,
            ⟨"11:00", "C", "TASK", ""⟩] : List SItem)).length ∧
    ∀ i, i < totalPagesOf
          [⟨"09:00", "A", "CALENDAR", ""⟩, ⟨"10:00", "B", "CALENDAR", ""⟩,
            ⟨"11:00", "C", "TASK", ""⟩] 2 →
        (pageAt [⟨"09:00", "A", "CALENDAR", ""⟩, ⟨"10:00", "B", "CALENDAR", ""⟩,
            ⟨"11:00", "C", "TASK", ""⟩] 2 i).length ≤ 2) :=
  ⟨by decide,
    pages_partition
      [⟨"09:00", "A", "CALENDAR", ""⟩, ⟨"10:00", "B", "CALENDAR", ""⟩,
        ⟨"11:00", "C", "TASK", ""⟩] 2 (by decide)⟩

/-- Inserting an element permutes consing it. -/
lemma insertByKey_perm (x : SItem) (l : List SItem) :
    List.Perm (insertByKey x l) (x :: l) := by
  induction l with
  | nil => exact List.Perm.refl _
  | cons y ys ih =>
    simp only [insertByKey]
    split
    · exact (ih.cons y).trans (List.Perm.swap x y ys)
    · exact List.Perm.refl _

/-- Insertion preserves sortedness by the key. -/
lemma insertByKey_sorted (x : SItem) (l : List SItem)
    (hl : l.Sorted (fun a b => (sort_key a).data ≤ (sort_key b).data)) :
    (insertByKey x l).Sorted (fun a b => (sort_key a).data ≤ (sort_key b).data) := by
  induction l with
  | nil => simp [insertByKey]
  | cons y ys ih =>
    simp only [insertByKey]
    rw [List.sorted_cons] at hl
    split
    · rename_i hlt
      rw [List.sorted_cons]
      refine ⟨?_, ih hl.2⟩
      intro b hb
      rcases List.mem_cons.mp ((insertByKey_perm x ys).mem_iff.mp hb) with rfl | hbys
      · exact le_of_lt hlt
      · exact hl.1 b hbys
    · rename_i hnlt
      rw [List.sorted_cons]
      refine ⟨?_, List.sorted_cons.mpr hl⟩
      intro b hb
      rcases List.mem_cons.mp hb with rfl | hbys
      · exact le_of_not_lt hnlt
      · exact le_trans (le_of_not_lt hnlt) (hl.1 b hbys)

/-- Insertion is stable: restricted to the items of any one key, it puts
the inserted (originally earlier) element in front and disturbs nothing
else — elements it passes over all have strictly smaller keys. -/
lemma insertByKey_filter (x : SItem) (k : List Char) (l : List SItem) :
    (insertByKey x l).filter (fun it => (sort_key it).data == k) =
      if (sort_key x).data = k then
        x :: l.filter (fun it => (sort_key it).data == k)
      else l.filter (fun it => (sort_key it).data == k) := by
  induction l with
  | nil =>
    by_cases hx : (sort_key x).data = k <;> simp [insertByKey, List.filter_cons, hx]
  | cons y ys ih =>
    simp only [insertByKey]
    split
    · rename_i hlt
      by_cases hx : (sort_key x).data = k
      · have hy : ¬ (sort_key y).data = k := by
          intro hy
          rw [hx] at hlt
          rw [hy] at hlt
          exact lt_irrefl k hlt
        simp [List.filter_cons, hx, hy, ih]
      · simp [List.filter_cons, hx, ih]
    · by_cases hx : (sort_key x).data = k <;> simp [List.filter_cons, hx]

/-- C6 (amended): the pre-render sort orders items by the key — `"00:00"`
when the time label is the sentinel `"Dia todo"`, the literal label
otherwise, compared as Python compares strings — so all-day items come
first, then chronological order; it is a permutation of the input; and it
is stable: items with equal keys keep their original input order (they
are *not* reordered by title). -/
theorem sortItems_spec (l : List SItem) :
    (sortItems l).Sorted (fun a b => (sort_key a).data ≤ (sort_key b).data) ∧
    List.Perm (sortItems l) l ∧
    ∀ k : List Char, (sortItems l).filter (fun it => (sort_key it).data == k) =
      l.filter (fun it => (sort_key it).data == k) := by
  induction l with
  | nil => exact ⟨List.sorted_nil, List.Perm.refl _, fun _ => rfl⟩
  | cons x xs ih =>
    have hfold : sortItems (x :: xs) = insertByKey x (sortItems xs) := rfl
    refine ⟨?_, ?_, ?_⟩
    · rw [hfold]; exact insertByKey_sorted x _ ih.1
    · rw [hfold]; exact (insertByKey_perm x _).trans (ih.2.1.cons x)
    · intro k
      rw [hfold, insertByKey_filter, List.filter_cons, ih.2.2 k]
      by_cases hx : (sort_key x).data = k <;> simp [hx]

/-- C6 counterexample: two items share the key `"09:00"` with titles
`"Zebra"` (first in the input) and `"Apple"`; the sort keeps `"Zebra"`
first even though `"Apple"` precedes it alphabetically, so equal-key
items are ordered by original position, not by title. -/
theorem sortItems_ties_not_by_title :
    sortItems [⟨"09:00", "Zebra", "CALENDAR", ""⟩, ⟨"09:00", "Apple", "CALENDAR", ""⟩] =
      [⟨"09:00", "Zebra", "CALENDAR", ""⟩, ⟨"09:00", "Apple", "CALENDAR", ""⟩] ∧
    sort_key ⟨"09:00", "Zebra", "CALENDAR", ""⟩ =
      sort_key ⟨"09:00", "Apple", "CALENDAR", ""⟩ ∧
    ("Apple" : String).data < ("Zebra" : String).data :=
  ⟨by decide, rfl, by decide⟩

/-- Concatenating the week rows recovers the flat cell list. -/
lemma weekRowsGo_flatten : ∀ (fuel : Nat) (l : List Nat), l.length ≤ fuel →
    (weekRowsGo fuel l).flatten = l := by
  intro fuel
  induction fuel with
  | zero =>
    intro l hl
    simp only [Nat.le_zero, List.length_eq_zero] at hl
    simp [weekRowsGo, hl]
  | succ f ih =>
    intro l hl
    simp only [weekRowsGo]
    split
    · rename_i h; simp [h]
    · rename_i h
      have hlen : l.length ≠ 0 := fun hz => h (List.length_eq_zero.mp hz)
      rw [List.flatten_cons, ih (l.drop 7) (by simp only [List.length_drop]; omega)]
      exact List.take_append_drop 7 l

/-- When the flat cell list has a multiple of 7 cells, every week row has
exactly 7 cells. -/
lemma weekRowsGo_row_length : ∀ (fuel : Nat) (l : List Nat), l.length ≤ fuel →
    7 ∣ l.length → ∀ r ∈ weekRowsGo fuel l, r.length = 7 := by
  intro fuel
  induction fuel with
  | zero =>
    intro l _ _ r hr
    simp [weekRowsGo] at hr
  | succ f ih =>
    intro l hl hd r hr
    simp only [weekRowsGo] at hr
    split at hr
    · simp at hr
    · rename_i h
      have hlen : l.length ≠ 0 := fun hz => h (List.length_eq_zero.mp hz)
      have h7 : 7 ≤ l.length := by omega
      rcases List.mem_cons.mp hr with rfl | hr'
      · simp only [List.length_take]
        omega
      · exact ih (l.drop 7) (by simp only [List.length_drop]; omega)
          (by simp only [List.length_drop]; omega) r hr'

/-- C7 (amended): for every date the month grid is rectangular — every
week row has exactly 7 cells — and its cells, read in order, are a run of
empty (0) cells, then the day numbers `1..N` of the full month, then
empty cells; the day numbers start at flat offset
`(weekday(1st) + 1) % 7` and day `d` sits in column
`(weekday(d) + 1) % 7`, i.e. the first column is **Sunday**
(a Sunday has Python weekday 6, so `(6 + 1) % 7 = 0`), not Monday. -/
theorem monthgrid_sunday_first (y m : Nat) (hm1 : 1 ≤ m) (hm2 : m ≤ 12) :
    (∀ r ∈ monthdayscalendar y m, r.length = 7) ∧
    (monthdayscalendar y m).flatten =
      List.replicate ((weekday y m 1 + 1) % 7) 0 ++
        List.range' 1 (daysInMonth y m) ++
        List.replicate ((7 - ((weekday y m 1 + 1) % 7 + daysInMonth y m) % 7) % 7) 0 ∧
    ∀ d, 1 ≤ d → d ≤ daysInMonth y m →
      ((monthdayscalendar y m).flatten)[(weekday y m 1 + 1) % 7 + (d - 1)]? = some d ∧
      ((weekday y m 1 + 1) % 7 + (d - 1)) % 7 = (weekday y m d + 1) % 7 := by
  have hmdc : monthdayscalendar y m =
      weekRows (List.replicate ((weekday y m 1 + 1) % 7) 0 ++
        List.range' 1 (daysInMonth y m) ++
        List.replicate ((7 - ((weekday y m 1 + 1) % 7 + daysInMonth y m) % 7) % 7) 0) := rfl
  set gap := (weekday y m 1 + 1) % 7 with hgap
  set n := daysInMonth y m with hn
  set pad := (7 - (gap + n) % 7) % 7 with hpad
  set L := List.replicate gap 0 ++ List.range' 1 n ++ List.replicate pad 0 with hL
  have hLlen : L.length = gap + (n + pad) := by
    simp [hL, List.length_append]
  have hflat : (monthdayscalendar y m).flatten = L := by
    rw [hmdc]
    exact weekRowsGo_flatten L.length L le_rfl
  refine ⟨?_, hflat, ?_⟩
  · intro r hr
    rw [hmdc] at hr
    apply weekRowsGo_row_length L.length L le_rfl _ r hr
    rw [hLlen]
    have hg7 : gap < 7 := Nat.mod_lt _ (by omega)
    have hp : pad = (7 - (gap + n) % 7) % 7 := hpad
    omega
  · intro d hd1 hdn
    constructor
    · rw [hflat, hL, List.append_assoc, List.getElem?_append, List.length_replicate,
        if_neg (by omega), List.getElem?_append, List.length_range', if_pos (by omega),
        List.getElem?_range' 1 1 (by omega)]
      have harith : 1 + 1 * (gap + (d - 1) - gap) = d := by omega
      rw [harith]
    · simp only [hgap, weekday]
      omega

/-- C7 counterexample: June 1, 2025 is a Sunday (Python weekday 6, not
Monday's 0), yet it occupies the first column of the first week row — so
the grid's first column is not Monday. -/
theorem monthgrid_first_column_not_monday :
    (monthdayscalendar 2025 6)[0]? = some [1, 2, 3, 4, 5, 6, 7] ∧
    weekday 2025 6 1 = 6 ∧ weekday 2025 6 1 ≠ 0 := by
  refine ⟨by decide, by decide, by decide⟩

/-- C7 witness: the amended grid shape at October 2025. -/
theorem monthgrid_sunday_first_witness :
    1 ≤ 10 ∧ 10 ≤ 12 ∧
    ((∀ r ∈ monthdayscalendar 2025 10, r.length = 7) ∧
    (monthdayscalendar 2025 10).flatten =
      List.replicate ((weekday 2025 10 1 + 1) % 7) 0 ++
        List.range' 1 (daysInMonth 2025 10) ++
        List.replicate ((7 - ((weekday 2025 10 1 + 1) % 7 + daysInMonth 2025 10) % 7) % 7) 0 ∧
    ∀ d, 1 ≤ d → d ≤ daysInMonth 2025 10 →
      ((monthdayscalendar 2025 10).flatten)[(weekday 2025 10 1 + 1) % 7 + (d - 1)]? = some d ∧
      ((weekday 2025 10 1 + 1) % 7 + (d - 1)) % 7 = (weekday 2025 10 d + 1) % 7) :=
  ⟨by decide, by decide, monthgrid_sunday_first 2025 10 (by decide) (by decide)⟩

/-- The binary-search loop never moves past `high`. -/
lemma truncSearchGo_le (w : List Char → Nat) (text : List Char) (maxW : Int) :
    ∀ (fuel low high : Nat), low ≤ high →
      truncSearchGo w text maxW fuel low high ≤ high := by
  intro fuel
  induction fuel with
  | zero => intro low high h; exact h
  | succ f ih =>
    intro low high h
    simp only [truncSearchGo]
    split
    · rename_i hlh
      have hmid : (low + high) / 2 < high := Nat.div_lt_of_lt_mul (by omega)
      split
      · exact ih _ _ (by omega)
      · have hlowmid : low ≤ (low + high) / 2 :=
          (Nat.le_div_iff_mul_le (by omega)).mpr (by omega)
        exact ih _ _ hlowmid |>.trans (le_of_lt hmid)
    · exact h

/-- Loop invariant of the binary search: whenever `low` has moved past 0,
the candidate `text[:low-1] + "..."` fits — `low` only advances to
`mid + 1` after the probe at `mid` fits. -/
lemma truncSearchGo_inv (w : List Char → Nat) (text : List Char) (maxW : Int) :
    ∀ (fuel low high : Nat),
      (low = 0 ∨ (w (text.take (low - 1) ++ ellipsis) : Int) ≤ maxW) →
      (truncSearchGo w text maxW fuel low high = 0 ∨
        (w (text.take (truncSearchGo w text maxW fuel low high - 1) ++ ellipsis) : Int)
          ≤ maxW) := by
  intro fuel
  induction fuel with
  | zero => intro low high h; exact h
  | succ f ih =>
    intro low high h
    simp only [truncSearchGo]
    split
    · split
      · rename_i hfit
        apply ih
        right
        simpa using hfit
      · exact ih _ _ h
    · exact h

/-- C1: for every input text, every glyph-width measure that is monotonic
in prefix length, and every max width at least the width of a bare
ellipsis, `_truncate_text` returns a string whose measured width does not
exceed the max width.  (The fit bound holds because the loop invariant
already guarantees the returned candidate fits; the monotonicity of the
measure — which the spec requires for the binary search to find the
*largest* fitting prefix — is not even needed for this bound.) -/
theorem truncate_text_fits (w : List Char → Nat) (text : List Char) (maxW : Int)
    (hmono : ∀ (s : List Char) (n : Nat), w (s.take n) ≤ w s)
    (hell : (w ellipsis : Int) ≤ maxW) :
    (w (truncate_text w text maxW) : Int) ≤ maxW := by
  simp only [truncate_text]
  split
  · assumption
  · have hle : truncSearch w text maxW 0 text.length ≤ text.length :=
      truncSearchGo_le w text maxW (text.length - 0) 0 text.length (Nat.zero_le _)
    have hinv : truncSearch w text maxW 0 text.length = 0 ∨
        (w (text.take (truncSearch w text maxW 0 text.length - 1) ++ ellipsis) : Int)
          ≤ maxW :=
      truncSearchGo_inv w text maxW (text.length - 0) 0 text.length (Or.inl rfl)
    by_cases hlen : text.length > 1
    · simp only [if_pos hlen]
      split
      · exact hell
      · rcases hinv with h0 | hfit
        · rw [h0]
          simpa using hell
        · exact hfit
    · simp only [if_neg hlen]
      have htake : text.take (truncSearch w text maxW 0 text.length - 1) = [] := by
        have hz : truncSearch w text maxW 0 text.length - 1 = 0 := by omega
        rw [hz, List.take_zero]
      simpa [htake] using hell

/-- C1 witness: with the character-count measure and max width 8,
truncating `"hello world"` yields a string of measured width at most
8. -/
theorem truncate_text_fits_witness :
    (List.length (truncate_text List.length "hello world".data 8) : Int) ≤ 8 :=
  truncate_text_fits List.length "hello world".data 8
    (fun s n => by rw [List.length_take]; exact min_le_right _ _)
    (by decide)

/-- Folding draw calls that all write to handle `img` leaves every other
handle's frame untouched. -/
lemma foldl_set_preserves {F : Type} (applyOp : F → DrawOp → F) (dflt : F) (img base : Nat)
    (hne : img ≠ base) :
    ∀ (ops : List DrawOp) (st : List F),
      (ops.foldl (fun st op => st.set img (applyOp (st.getD img dflt) op)) st)[base]? =
        st[base]? := by
  intro ops
  induction ops with
  | nil => intro st; rfl
  | cons op ops ih =>
    intro st
    rw [List.foldl_cons, ih]
    exact List.getElem?_set_ne hne

/-- C8: `render_dynamic` is copy-on-render: it copies the static base
frame to a fresh handle and issues every draw call against that copy, so
the base frame's content is exactly what it was before the call, for
every pixel semantics `applyOp` of the draw primitives. -/
theorem render_dynamic_preserves_base {F : Type} (applyOp : F → DrawOp → F) (dflt : F)
    (cfg : Config) (wm : List Char → Nat) (items : List SItem) (pageIndex : Nat)
    (timeText : String) (store : List F) (base : Nat) (hb : base < store.length) :
    ((render_dynamic_store applyOp dflt cfg wm items pageIndex timeText store base).1)[base]?
      = store[base]? := by
  simp only [render_dynamic_store]
  rw [foldl_set_preserves applyOp dflt store.length base (by omega)]
  rw [List.getElem?_append, if_pos hb]

/-- C8 witness: a concrete one-frame store with a counting rasteriser;
the base frame is unchanged by a dynamic render of one item. -/
theorem render_dynamic_preserves_base_witness :
    0 < [5].length ∧
    ((render_dynamic_store (fun (f : Nat) _ => f + 1) 0
        ⟨3, 106, 144, 250, 122, 15, 2, 3, 11, 9, 9, 11, 17, 35,
          "Sem Eventos", "Dia livre", "E"⟩
        (fun l => l.length) [⟨"09:00", "Standup", "CALENDAR", "Sala 1"⟩] 0 "12:34"
        [5] 0).1)[0]? = [5][0]? :=
  ⟨by decide,
    render_dynamic_preserves_base (fun (f : Nat) _ => f + 1) 0
      ⟨3, 106, 144, 250, 122, 15, 2, 3, 11, 9, 9, 11, 17, 35,
        "Sem Eventos", "Dia livre", "E"⟩
      (fun l => l.length) [⟨"09:00", "Standup", "CALENDAR", "Sala 1"⟩] 0 "12:34"
      [5] 0 (by decide)⟩

/-- One step of the `_draw_events` item loop, phrased with the cursor
advance `advanceCursor`. -/
lemma events_loop_drawn_cons (cfg : Config) (wm : List Char → Nat)
    (x width yLimit cy : Int) (it : SItem) (rest : List SItem) :
    (events_loop cfg wm x width yLimit cy (it :: rest)).2 =
      if advanceCursor cfg cy it > yLimit then [it]
      else it :: (events_loop cfg wm x width yLimit (advanceCursor cfg cy it) rest).2 := by
  simp only [events_loop, advanceCursor]
  split <;> split <;> rfl

/-- C9 (amended): the agenda loop draws a prefix of the page's items, in
order — the items after the break are not drawn at all — and every drawn
item *except the first* begins with the vertical cursor within the usable
height (`y + height - item_font.size`); the first item is drawn
unconditionally, even when the cursor already exceeds that bound, because
the source checks the bound only after drawing each item. -/
theorem events_loop_drawn_in_order (cfg : Config) (wm : List Char → Nat)
    (x width yLimit : Int) (cy : Int) (items : List SItem) :
    (events_loop cfg wm x width yLimit cy items).2 =
      items.take ((events_loop cfg wm x width yLimit cy items).2.length) ∧
    (∀ i, 0 < i → i < (events_loop cfg wm x width yLimit cy items).2.length →
      (items.take i).foldl (advanceCursor cfg) cy ≤ yLimit) := by
  induction items generalizing cy with
  | nil =>
    simp [events_loop]
  | cons it rest ih =>
    rcases ih (advanceCursor cfg cy it) with ⟨ihtake, ihcur⟩
    constructor
    · rw [events_loop_drawn_cons]
      split
      · simp
      · rw [List.length_cons, List.take_succ_cons]
        exact congrArg (it :: ·) ihtake
    · intro i h1 h2
      rw [events_loop_drawn_cons] at h2
      split at h2
      · simp at h2
        omega
      · rename_i hstop
        push_neg at hstop
        rw [List.length_cons] at h2
        cases i with
        | zero => omega
        | succ j =>
          rw [List.take_succ_cons, List.foldl_cons]
          cases Nat.eq_zero_or_pos j with
          | inl hj =>
            subst hj
            simpa using hstop
          | inr hj =>
            exact ihcur j hj (by omega)

/-- C9 counterexample: with a panel whose usable height bound is already
below the starting cursor (`y = 2`, `height = 0`, item font 9, so the
bound is `-7` while the cursor starts at `21`), the single item of the
page is still drawn — its rendering begins after the cursor has passed
the usable height, contradicting the claim's blanket "no item". -/
theorem events_loop_first_item_beyond_height :
    (events_loop
        ⟨3, 106, 144, 250, 122, 15, 2, 3, 11, 9, 9, 11, 17, 35,
          "Sem Eventos", "Dia livre", "E"⟩
        (fun l => l.length) 2 100 (2 + 0 - 9) (2 + 11 + 8)
        [⟨"09:00", "Reuniao", "CALENDAR", ""⟩]).2 =
      [⟨"09:00", "Reuniao", "CALENDAR", ""⟩] ∧
    (2 + 11 + 8 : Int) > 2 + 0 - 9 :=
  ⟨by decide, by decide⟩

/-- C9 witness: with the default geometry two items fit; the drawn list
is a prefix and the second item's entry cursor is within the bound. -/
theorem events_loop_drawn_in_order_witness :
    ((events_loop
        ⟨3, 106, 144, 250, 122, 15, 2, 3, 11, 9, 9, 11, 17, 35,
          "Sem Eventos", "Dia livre", "E"⟩
        (fun l => l.length) 5 100 111 24
        [⟨"09:00", "A", "CALENDAR", ""⟩, ⟨"10:00", "B", "CALENDAR", ""⟩]).2 =
      ([⟨"09:00", "A", "CALENDAR", ""⟩, ⟨"10:00", "B", "CALENDAR", ""⟩] : List SItem).take
        ((events_loop
          ⟨3, 106, 144, 250, 122, 15, 2, 3, 11, 9, 9, 11, 17, 35,
            "Sem Eventos", "Dia livre", "E"⟩
          (fun l => l.length) 5 100 111 24
          [⟨"09:00", "A", "CALENDAR", ""⟩, ⟨"10:00", "B", "CALENDAR", ""⟩]).2.length)) ∧
    0 < 1 ∧
    1 < ((events_loop
        ⟨3, 106, 144, 250, 122, 15, 2, 3, 11, 9, 9, 11, 17, 35,
          "Sem Eventos", "Dia livre", "E"⟩
        (fun l => l.length) 5 100 111 24
        [⟨"09:00", "A", "CALENDAR", ""⟩, ⟨"10:00", "B", "CALENDAR", ""⟩]).2.length) ∧
    (([⟨"09:00", "A", "CALENDAR", ""⟩, ⟨"10:00", "B", "CALENDAR", ""⟩] : List SItem).take 1).foldl
      (advanceCursor
        ⟨3, 106, 144, 250, 122, 15, 2, 3, 11, 9, 9, 11, 17, 35,
          "Sem Eventos", "Dia livre", "E"⟩) 24 ≤ 111 :=
  ⟨(events_loop_drawn_in_order
      ⟨3, 106, 144, 250, 122, 15, 2, 3, 11, 9, 9, 11, 17, 35,
        "Sem Eventos", "Dia livre", "E"⟩
      (fun l => l.length) 5 100 111 24
      [⟨"09:00", "A", "CALENDAR", ""⟩, ⟨"10:00", "B", "CALENDAR", ""⟩]).1,
    by decide, by decide,
    (events_loop_drawn_in_order
      ⟨3, 106, 144, 250, 122, 15, 2, 3, 11, 9, 9, 11, 17, 35,
        "Sem Eventos", "Dia livre", "E"⟩
      (fun l => l.length) 5 100 111 24
      [⟨"09:00", "A", "CALENDAR", ""⟩, ⟨"10:00", "B", "CALENDAR", ""⟩]).2 1
      (by decide) (by decide)⟩
